import Mathlib

/-!
Shallow embedding of the task mutation, audit-history and report subsystem of
the task-management API (the code wired by `app.js`, i.e. the services under
`src/services`, the models under `src/models`, and `src/middlewares/utils.js`).

Modelling conventions:
- Mongoose documents become Lean structures; the document store becomes an
  explicit `Store` record of lists.
- Field values (including `Date` values such as `dueDate` and the history
  `changeDate`) are modelled by their string rendering, respectively by the
  millisecond timestamp as an `Int`; string equality models the `!=`
  comparisons the services perform on same-typed values.
- JavaScript truthiness on an optional string field (`if (taskData.title)`)
  is modelled by `isTruthy : Option String -> Bool` (absent or empty string
  is falsy).
- Each service function is compiled into a function returning an `Outcome`:
  the ordered list of store writes it performed (`writes`, in the order the
  corresponding `await ....save() / findByIdAndUpdate / deleteMany / ...`
  statements execute) together with its `result` (the returned entity, or the
  thrown error).  A thrown error aborts the function, so writes performed
  before the throw are kept and later ones never happen, exactly as in the
  JavaScript control flow.
- `new Date().getDate()` (day of month, 1..31) is passed in as a `day`
  parameter; the server-assigned timestamps are passed in as a `now`
  parameter.
-/

namespace TaskApi

/-- Error taxonomy of the services: each constructor stands for one of the
`throw new Error(...)` sites (`utils.js` and the services). -/
inductive ApiError where
  | userMissing
  | userNotFound
  | projectNotFound
  | taskNotFound
  | invalidStatus
  | invalidTransition
  | taskLimitReached
  | notManager
  deriving DecidableEq, Repr

/-- Entity `User` (src/models/userModel.js): role is 'Manager' or 'User'. -/
structure User where
  id : String
  name : String
  email : String
  role : String
  deriving DecidableEq, Repr

/-- Entity `Project` (src/models/projectModel.js). -/
structure Project where
  id : String
  name : String
  description : String
  owner : String
  deriving DecidableEq, Repr

/-- Entity `Task` (src/models/taskModel.js): status in Pendente, EmAndamento,
Concluida; priority in Baixa, Media, Alta and declared `immutable: true` in
the schema; `dueDate` is modelled by its string rendering. -/
structure Task where
  id : String
  title : String
  description : String
  status : String
  priority : String
  dueDate : String
  projectId : String
  deriving DecidableEq, Repr

/-- Entity `TaskHistory` (src/models/taskHistoryModel.js); `changeDate` is the
timestamp assigned at save time, in milliseconds since the epoch. -/
structure TaskHistory where
  taskId : String
  userId : String
  changeType : String
  fieldName : Option String
  oldValue : Option String
  newValue : Option String
  comment : Option String
  changeDate : Int
  deriving DecidableEq, Repr

/-- The document store: one list per collection. -/
structure Store where
  users : List User
  projects : List Project
  tasks : List Task
  history : List TaskHistory
  deriving DecidableEq, Repr

/-- JavaScript truthiness of an optional string (`undefined` and `""` are
falsy). -/
def isTruthy : Option String → Bool
  | none => false
  | some s => s ≠ ""

/-- `User.findById` . -/
def findUser (st : Store) (id : String) : Option User :=
  st.users.find? (fun u => u.id = id)

/-- `Project.findById` . -/
def findProject (st : Store) (id : String) : Option Project :=
  st.projects.find? (fun p => p.id = id)

/-- `Task.findById` . -/
def findTask (st : Store) (id : String) : Option Task :=
  st.tasks.find? (fun t => t.id = id)

/-- `utils.checkUser` (src/middlewares/utils.js): rejects a falsy id, then
requires the user to exist. -/
def checkUser (st : Store) (id : String) : Except ApiError User :=
  if id = "" then .error .userMissing
  else match findUser st id with
    | none => .error .userNotFound
    | some u => .ok u

/-- `utils.checkProject` (src/middlewares/utils.js). -/
def checkProject (st : Store) (id : String) : Except ApiError Project :=
  match findProject st id with
  | none => .error .projectNotFound
  | some p => .ok p

/-- `utils.checkTask` (src/middlewares/utils.js). -/
def checkTask (st : Store) (id : String) : Except ApiError Task :=
  match findTask st id with
  | none => .error .taskNotFound
  | some t => .ok t

/-- The three legal status values. -/
def legalStatus (s : String) : Bool :=
  s = "Pendente" || s = "EmAndamento" || s = "Concluida"

/-- `utils.checkTaskStatus` (src/middlewares/utils.js, lines 156-169):
throws `Status inválido.` when the new value is falsy or not one of the three
legal values, throws `Não é possível reabrir uma tarefa concluída.` when the
old value is Concluida and the new value differs, otherwise returns true. -/
def checkTaskStatus (newValue : Option String) (oldValue : String) :
    Except ApiError Bool :=
  match newValue with
  | none => .error .invalidStatus
  | some v =>
    if v = "" || !legalStatus v then .error .invalidStatus
    else if oldValue = "Concluida" && v ≠ "Concluida" then .error .invalidTransition
    else .ok true

/-- The partial update object (`taskData`) received by `updateTask` /
`updateTaskStatus`: each field is present (`some`) or absent (`none`). -/
structure UpdateInput where
  title : Option String := none
  description : Option String := none
  dueDate : Option String := none
  status : Option String := none
  priority : Option String := none
  deriving DecidableEq, Repr

/-- One primitive store write, as performed by the services. -/
inductive WriteEvent where
  | insertTask (t : Task)
  | insertHistory (h : TaskHistory)
  | updateTaskDoc (id : String) (patch : UpdateInput)
  | deleteHistoryByTask (taskId : String)
  | deleteTaskDoc (id : String)
  deriving DecidableEq, Repr

/-- Effect of `Task.findByIdAndUpdate(id, patch)` on one document: each field
present in the patch overwrites the stored field.  The schema declares
`priority` as `immutable: true` (src/models/taskModel.js lines 43-48), so
Mongoose strips the priority path from every update document: the patch's
priority never reaches the stored task. -/
def applyPatch (t : Task) (p : UpdateInput) : Task :=
  { t with
    title := p.title.getD t.title
    description := p.description.getD t.description
    dueDate := p.dueDate.getD t.dueDate
    status := p.status.getD t.status }

/-- Effect of one write on the store. -/
def applyWrite (st : Store) : WriteEvent → Store
  | .insertTask t => { st with tasks := st.tasks ++ [t] }
  | .insertHistory h => { st with history := st.history ++ [h] }
  | .updateTaskDoc id p =>
      { st with tasks := st.tasks.map (fun t => if t.id = id then applyPatch t p else t) }
  | .deleteHistoryByTask tid =>
      { st with history := st.history.filter (fun h => h.taskId ≠ tid) }
  | .deleteTaskDoc id =>
      { st with tasks := st.tasks.filter (fun t => t.id ≠ id) }

/-- Replay a list of writes. -/
def applyWrites (st : Store) (ws : List WriteEvent) : Store :=
  ws.foldl applyWrite st

/-- Decidable equality for `Except`, so that concrete outcomes evaluate. -/
def exceptDecEq {ε α : Type} [DecidableEq ε] [DecidableEq α] :
    DecidableEq (Except ε α)
  | .error a, .error b =>
    match decEq a b with
    | isTrue h => isTrue (by rw [h])
    | isFalse h => isFalse (by intro hh; cases hh; exact h rfl)
  | .error _, .ok _ => isFalse (by intro h; cases h)
  | .ok _, .error _ => isFalse (by intro h; cases h)
  | .ok a, .ok b =>
    match decEq a b with
    | isTrue h => isTrue (by rw [h])
    | isFalse h => isFalse (by intro hh; cases hh; exact h rfl)

instance {ε α : Type} [DecidableEq ε] [DecidableEq α] :
    DecidableEq (Except ε α) :=
  exceptDecEq

/-- Result of one service call: the ordered writes it performed and the value
it returned (`some` entity, `none` for a null return) or the error it threw. -/
structure Outcome where
  writes : List WriteEvent
  result : Except ApiError (Option Task)
  deriving DecidableEq, Repr

/-- The store after a call. -/
def finalStore (st : Store) (o : Outcome) : Store :=
  applyWrites st o.writes

/-- The history entries a call inserted, in insertion order. -/
def historyOf (o : Outcome) : List TaskHistory :=
  o.writes.filterMap (fun w => match w with
    | .insertHistory h => some h
    | _ => none)

/-- A history entry as built at the four `new TaskHistory(\x7b... changeType:
"Update" ...\x7d)` sites of `updateTask` / `updateTaskStatus`. -/
def mkUpdateHistory (now : Int) (taskId userId field oldV newV : String) :
    TaskHistory :=
  { taskId := taskId, userId := userId, changeType := "Update",
    fieldName := some field, oldValue := some oldV, newValue := some newV,
    comment := none, changeDate := now }

/-- One conditional history write of `updateTask`:
`if (taskData.f && task.f != taskData.f) \x7b ... await history.save() \x7d`. -/
def fieldHistory (now : Int) (userId taskId field : String)
    (current : String) (incoming : Option String) : List TaskHistory :=
  match incoming with
  | none => []
  | some v =>
    if v ≠ "" && current ≠ v then [mkUpdateHistory now taskId userId field current v]
    else []

/-- `if (taskData.priority) delete taskData.priority` in `updateTask`: a
truthy priority is removed from the update document before persistence. -/
def stripPriority (input : UpdateInput) : UpdateInput :=
  if isTruthy input.priority then { input with priority := none } else input

theorem stripPriority_title (input : UpdateInput) :
    (stripPriority input).title = input.title := by
  unfold stripPriority
  split <;> rfl

theorem stripPriority_description (input : UpdateInput) :
    (stripPriority input).description = input.description := by
  unfold stripPriority
  split <;> rfl

theorem stripPriority_dueDate (input : UpdateInput) :
    (stripPriority input).dueDate = input.dueDate := by
  unfold stripPriority
  split <;> rfl

theorem stripPriority_status (input : UpdateInput) :
    (stripPriority input).status = input.status := by
  unfold stripPriority
  split <;> rfl

/-- `taskService.updateTask` (src/services/taskService.js lines 148-228):
check user, check task, run `checkTaskStatus` on the incoming status
unconditionally, delete a truthy `priority` from the input, save one history
entry per changed truthy field in the order Title, Description, DueTo,
Status, then `findByIdAndUpdate` with the remaining input. -/
def updateTask (st : Store) (now : Int) (userId taskId : String)
    (input : UpdateInput) : Outcome :=
  match checkUser st userId with
  | .error e => { writes := [], result := .error e }
  | .ok _ =>
  match checkTask st taskId with
  | .error e => { writes := [], result := .error e }
  | .ok task =>
  match checkTaskStatus input.status task.status with
  | .error e => { writes := [], result := .error e }
  | .ok _ =>
    let data := stripPriority input
    let hists :=
      fieldHistory now userId taskId "Title" task.title data.title ++
      fieldHistory now userId taskId "Description" task.description data.description ++
      fieldHistory now userId taskId "DueTo" task.dueDate data.dueDate ++
      fieldHistory now userId taskId "Status" task.status data.status
    let writes := hists.map WriteEvent.insertHistory ++ [WriteEvent.updateTaskDoc taskId data]
    { writes := writes, result := .ok (findTask (applyWrites st writes) taskId) }

/-- `taskService.updateTaskStatus` (src/services/taskService.js lines
247-279): check user, check task, `checkTaskStatus`, save one Status history
entry when the status changes, then `findByIdAndUpdate` with only the status. -/
def updateTaskStatus (st : Store) (now : Int) (userId taskId : String)
    (input : UpdateInput) : Outcome :=
  match checkUser st userId with
  | .error e => { writes := [], result := .error e }
  | .ok _ =>
  match checkTask st taskId with
  | .error e => { writes := [], result := .error e }
  | .ok task =>
  match checkTaskStatus input.status task.status with
  | .error e => { writes := [], result := .error e }
  | .ok _ =>
    let hists :=
      match input.status with
      | some v => if task.status ≠ v then [mkUpdateHistory now taskId userId "Status" task.status v] else []
      | none => []
    let writes := hists.map WriteEvent.insertHistory ++
      [WriteEvent.updateTaskDoc taskId { status := input.status }]
    { writes := writes, result := .ok (findTask (applyWrites st writes) taskId) }

/-- `taskService.addComment` (src/services/taskService.js lines 295-317):
check user, check task, always save one Comment history entry, then a no-op
`findByIdAndUpdate` with an empty patch. -/
def addComment (st : Store) (now : Int) (userId taskId : String)
    (commentText : Option String) : Outcome :=
  match checkUser st userId with
  | .error e => { writes := [], result := .error e }
  | .ok _ =>
  match checkTask st taskId with
  | .error e => { writes := [], result := .error e }
  | .ok _ =>
    let h : TaskHistory :=
      { taskId := taskId, userId := userId, changeType := "Comment",
        fieldName := none, oldValue := none, newValue := none,
        comment := commentText, changeDate := now }
    let writes := [WriteEvent.insertHistory h, WriteEvent.updateTaskDoc taskId {}]
    { writes := writes, result := .ok (findTask (applyWrites st writes) taskId) }

/-- `taskService.deleteTask` (src/services/taskService.js lines 331-340):
check user, `TaskHistory.deleteMany` on the task id, then
`Task.findByIdAndDelete` (which returns the deleted document or null); the
task's existence is never checked. -/
def deleteTask (st : Store) (userId taskId : String) : Outcome :=
  match checkUser st userId with
  | .error e => { writes := [], result := .error e }
  | .ok _ =>
    let writes := [WriteEvent.deleteHistoryByTask taskId, WriteEvent.deleteTaskDoc taskId]
    { writes := writes, result := .ok (findTask st taskId) }

/-- The live task count of a project: the `taskCount` virtual of
src/models/projectModel.js (lines 46-51), a count of the tasks whose
`projectId` is the project's id, populated on demand. -/
def taskCount (st : Store) (projectId : String) : Nat :=
  (st.tasks.filter (fun t => t.projectId = projectId)).length

/-- The creation payload of `createTaskForProject`. -/
structure CreateInput where
  title : String
  description : String := ""
  dueDate : String
  priority : String
  deriving DecidableEq, Repr

/-- The document `new Task(\x7b...taskData\x7d)` builds in
`createTaskForProject`: status defaulted to Pendente by the schema, projectId
set by the service, `newId` the UUID the schema default assigns. -/
def createdTask (newId projectId : String) (input : CreateInput) : Task :=
  { id := newId, title := input.title, description := input.description,
    status := "Pendente", priority := input.priority,
    dueDate := input.dueDate, projectId := projectId }

/-- The Create history entry `createTaskForProject` saves after the task. -/
def createdHist (now : Int) (newId userId : String) (input : CreateInput) :
    TaskHistory :=
  { taskId := newId, userId := userId, changeType := "Create",
    fieldName := none, oldValue := none,
    newValue := some ("Tarefa '" ++ input.title ++ "' foi criada."),
    comment := none, changeDate := now }

/-- `taskService.createTaskForProject` (src/services/taskService.js lines
27-72): check user, check project, populate the `taskCount` virtual and throw
the task-limit error when it is at least 20, otherwise save the task and then
save the Create history entry. -/
def createTaskForProject (st : Store) (now : Int) (newId : String)
    (userId projectId : String) (input : CreateInput) : Outcome :=
  match checkUser st userId with
  | .error e => { writes := [], result := .error e }
  | .ok _ =>
  match checkProject st projectId with
  | .error e => { writes := [], result := .error e }
  | .ok _ =>
    if taskCount st projectId ≥ 20 then
      { writes := [], result := .error .taskLimitReached }
    else
      { writes := [WriteEvent.insertTask (createdTask newId projectId input),
                   WriteEvent.insertHistory (createdHist now newId userId input)],
        result := .ok (some (createdTask newId projectId input)) }

/-- The performance report object (src/services/reportService.js). -/
structure Report where
  totalTasksCompleted : Nat
  distinctUsersWhoCompletedTasks : Nat
  averageTasksCompletedPerUser : ℚ
  deriving DecidableEq, Repr

/-- `Math.round`: round half toward positive infinity. -/
def jsRound (q : ℚ) : ℤ :=
  ⌊q + 1 / 2⌋

/-- The history query of `getPerformanceReport` (src/services/reportService.js
lines 45-50): `changeDate: \x7b $gte: new Date().getDate() - 30 \x7d` compares
against the day of month minus 30, a small integer that Mongoose casts to a
date a few milliseconds around the epoch; the remaining three conditions
select the Status-to-Concluida update entries.  `day` is the value
`new Date().getDate()` returned (1..31). -/
def matchesCompletedQuery (day : Nat) (h : TaskHistory) : Bool :=
  decide ((day : Int) - 30 ≤ h.changeDate) &&
    decide (h.changeType = "Update") &&
    decide (h.fieldName = some "Status") &&
    decide (h.newValue = some "Concluida")

/-- `TaskHistory.find(query)` of `getPerformanceReport`: the history entries
matching the query. -/
def completedIn (st : Store) (day : Nat) : List TaskHistory :=
  st.history.filter (matchesCompletedQuery day)

/-- The aggregation step of `getPerformanceReport` over the entries the query
returned: total entries; when zero a zeroed report; otherwise the distinct
user ids (a `Set(...).size`) and the average rounded to two decimals by
`Math.round(avg * 100) / 100`. -/
def reportOf (completed : List TaskHistory) : Report :=
  if completed.length = 0 then
    { totalTasksCompleted := 0, distinctUsersWhoCompletedTasks := 0,
      averageTasksCompletedPerUser := 0 }
  else
    { totalTasksCompleted := completed.length,
      distinctUsersWhoCompletedTasks := (completed.map (fun h => h.userId)).dedup.length,
      averageTasksCompletedPerUser :=
        (jsRound ((completed.length : ℚ) /
          ((completed.map (fun h => h.userId)).dedup.length : ℚ) * 100) : ℚ) / 100 }

/-- `reportService.getPerformanceReport` (src/services/reportService.js lines
34-82): check the user exists, reject a non-Manager role, then filter and
aggregate the history. -/
def getPerformanceReport (st : Store) (day : Nat) (userId : String) :
    Except ApiError Report :=
  match checkUser st userId with
  | .error e => .error e
  | .ok user =>
    if user.role ≠ "Manager" then .error .notManager
    else .ok (reportOf (completedIn st day))

/-! ## General lemmas about the write machinery -/

/-- Replaying writes distributes over append. -/
theorem applyWrites_append (st : Store) (ws ws' : List WriteEvent) :
    applyWrites st (ws ++ ws') = applyWrites (applyWrites st ws) ws' :=
  List.foldl_append applyWrite st ws ws'

/-- The (id, priority) view of the task collection. -/
def taskPrioMap (st : Store) : List (String × String) :=
  st.tasks.map (fun t => (t.id, t.priority))

/-- A write that can change no stored task's priority (nor drop or add a
task). -/
def preservesPrio (w : WriteEvent) : Prop :=
  ∀ st : Store, taskPrioMap (applyWrite st w) = taskPrioMap st

theorem preservesPrio_insertHistory (h : TaskHistory) :
    preservesPrio (.insertHistory h) := by
  intro st
  rfl

/-- A task update document never touches priority: the schema marks the path
immutable, so `applyPatch` keeps it. -/
theorem preservesPrio_updateTaskDoc (id : String) (p : UpdateInput) :
    preservesPrio (.updateTaskDoc id p) := by
  intro st
  unfold taskPrioMap applyWrite
  simp only [List.map_map]
  have hfun : (fun t : Task => ((if t.id = id then applyPatch t p else t).id,
      (if t.id = id then applyPatch t p else t).priority)) =
      fun t : Task => (t.id, t.priority) := by
    funext t
    by_cases h : t.id = id <;> simp [h, applyPatch]
  simp only [Function.comp_def]
  rw [hfun]

theorem prioMap_applyWrites (ws : List WriteEvent)
    (h : ∀ w ∈ ws, preservesPrio w) (st : Store) :
    taskPrioMap (applyWrites st ws) = taskPrioMap st := by
  induction ws generalizing st with
  | nil => rfl
  | cons w ws ih =>
    have hw : preservesPrio w := h w (List.mem_cons_self w ws)
    have hrest : ∀ w' ∈ ws, preservesPrio w' := fun w' hw' => h w' (List.mem_cons_of_mem w hw')
    calc taskPrioMap (applyWrites (applyWrite st w) ws)
        = taskPrioMap (applyWrite st w) := ih hrest (applyWrite st w)
      _ = taskPrioMap st := hw st

/-! ## Concrete fixtures used by witnesses and counterexamples -/

/-- A plain (non-manager) user. -/
def uFix : User := { id := "u1", name := "Ana", email := "ana@x", role := "User" }

/-- A pending task of project p1. -/
def tPending : Task :=
  { id := "t1", title := "Old title", description := "Old description",
    status := "Pendente", priority := "Alta", dueDate := "2025-01-01",
    projectId := "p1" }

/-- A completed task of project p1. -/
def tDone : Task :=
  { id := "t2", title := "Done title", description := "Done description",
    status := "Concluida", priority := "Media", dueDate := "2025-01-02",
    projectId := "p1" }

/-- The fixture project. -/
def pFix : Project := { id := "p1", name := "P", description := "d", owner := "u1" }

/-- The base fixture store: one user, one project, a pending and a completed
task, empty history. -/
def stFix : Store :=
  { users := [uFix],
    projects := [pFix],
    tasks := [tPending, tDone],
    history := [] }

/-! ## Claims -/

/-- Claim C1: once a task's stored status is Concluida, updateTask and
updateTaskStatus called with any legal status value other than Concluida both
fail with the invalid-transition error, perform no write, and leave the store
unchanged. -/
theorem claim1_completed_status_locked (st : Store) (now : Int)
    (userId taskId : String) (input : UpdateInput) (u : User) (task : Task)
    (s : String)
    (hu : checkUser st userId = .ok u)
    (ht : checkTask st taskId = .ok task)
    (hdone : task.status = "Concluida")
    (hs : input.status = some s)
    (hlegal : legalStatus s = true)
    (hne : s ≠ "Concluida") :
    (updateTask st now userId taskId input).result = .error .invalidTransition ∧
    (updateTask st now userId taskId input).writes = [] ∧
    finalStore st (updateTask st now userId taskId input) = st ∧
    (updateTaskStatus st now userId taskId input).result = .error .invalidTransition ∧
    (updateTaskStatus st now userId taskId input).writes = [] ∧
    finalStore st (updateTaskStatus st now userId taskId input) = st := by
  have hs0 : s ≠ "" := by
    have h3 : (s = "Pendente" ∨ s = "EmAndamento") ∨ s = "Concluida" := by
      simpa [legalStatus] using hlegal
    rcases h3 with (h | h) | h <;> subst h <;> decide
  have hcs : checkTaskStatus input.status task.status = .error .invalidTransition := by
    rw [hs, hdone]
    simp [checkTaskStatus, hs0, hlegal, hne]
  unfold updateTask updateTaskStatus
  simp [hu, ht, hcs, finalStore, applyWrites]

/-- Witness for C1 at a concrete store: reopening the completed task t2 with
Pendente. -/
theorem claim1_witness :
    (updateTask stFix 0 "u1" "t2" { status := some "Pendente" }).result =
      .error .invalidTransition ∧
    (updateTask stFix 0 "u1" "t2" { status := some "Pendente" }).writes = [] ∧
    finalStore stFix (updateTask stFix 0 "u1" "t2" { status := some "Pendente" }) = stFix ∧
    (updateTaskStatus stFix 0 "u1" "t2" { status := some "Pendente" }).result =
      .error .invalidTransition ∧
    (updateTaskStatus stFix 0 "u1" "t2" { status := some "Pendente" }).writes = [] ∧
    finalStore stFix (updateTaskStatus stFix 0 "u1" "t2" { status := some "Pendente" }) = stFix :=
  claim1_completed_status_locked stFix 0 "u1" "t2" { status := some "Pendente" }
    uFix tDone "Pendente" rfl rfl rfl rfl (by decide) (by decide)

/-- Every write updateTask performs keeps every task's priority. -/
theorem updateTask_writes_preservePrio (st : Store) (now : Int)
    (userId taskId : String) (input : UpdateInput) :
    ∀ w ∈ (updateTask st now userId taskId input).writes, preservesPrio w := by
  intro w hw
  unfold updateTask at hw
  split at hw
  · simp at hw
  split at hw
  · simp at hw
  split at hw
  · simp at hw
  simp only [List.mem_append, List.mem_map, List.mem_singleton] at hw
  rcases hw with ⟨h, _, rfl⟩ | rfl
  · exact preservesPrio_insertHistory h
  · exact preservesPrio_updateTaskDoc _ _

/-- Every write updateTaskStatus performs keeps every task's priority. -/
theorem updateTaskStatus_writes_preservePrio (st : Store) (now : Int)
    (userId taskId : String) (input : UpdateInput) :
    ∀ w ∈ (updateTaskStatus st now userId taskId input).writes, preservesPrio w := by
  intro w hw
  unfold updateTaskStatus at hw
  split at hw
  · simp at hw
  split at hw
  · simp at hw
  split at hw
  · simp at hw
  simp only [List.mem_append, List.mem_map, List.mem_singleton] at hw
  rcases hw with ⟨h, _, rfl⟩ | rfl
  · exact preservesPrio_insertHistory h
  · exact preservesPrio_updateTaskDoc _ _

/-- Every write addComment performs keeps every task's priority. -/
theorem addComment_writes_preservePrio (st : Store) (now : Int)
    (userId taskId : String) (c : Option String) :
    ∀ w ∈ (addComment st now userId taskId c).writes, preservesPrio w := by
  intro w hw
  unfold addComment at hw
  split at hw
  · simp at hw
  split at hw
  · simp at hw
  simp only [List.mem_cons, List.not_mem_nil, or_false] at hw
  rcases hw with rfl | rfl
  · exact preservesPrio_insertHistory _
  · exact preservesPrio_updateTaskDoc _ _

/-- Claim C2: priority is immutable after creation.  updateTask (even when
its input carries a priority), updateTaskStatus and addComment leave the
(id, priority) view of the task collection unchanged, and deleteTask only
removes tasks (every surviving task is one of the original tasks), so no
post-creation operation ever alters a stored task's priority. -/
theorem claim2_priority_immutable (st : Store) (now : Int)
    (userId taskId : String) (input : UpdateInput) (c : Option String) :
    taskPrioMap (finalStore st (updateTask st now userId taskId input)) = taskPrioMap st ∧
    taskPrioMap (finalStore st (updateTaskStatus st now userId taskId input)) = taskPrioMap st ∧
    taskPrioMap (finalStore st (addComment st now userId taskId c)) = taskPrioMap st ∧
    List.Sublist (finalStore st (deleteTask st userId taskId)).tasks st.tasks := by
  refine ⟨?_, ?_, ?_, ?_⟩
  · exact prioMap_applyWrites _ (updateTask_writes_preservePrio st now userId taskId input) st
  · exact prioMap_applyWrites _ (updateTaskStatus_writes_preservePrio st now userId taskId input) st
  · exact prioMap_applyWrites _ (addComment_writes_preservePrio st now userId taskId c) st
  · unfold deleteTask finalStore
    split
    · exact List.Sublist.refl _
    · show List.Sublist (st.tasks.filter (fun t => t.id ≠ taskId)) st.tasks
      exact List.filter_sublist st.tasks

/-- Claim C9: deleteTask with an existing actor and a task id that matches no
task does not fail: it returns no entity, leaves the task collection
unchanged, and still deletes every history entry whose taskId matches. -/
theorem claim9_delete_no_precondition (st : Store) (userId taskId : String)
    (u : User)
    (hu : checkUser st userId = .ok u)
    (hnone : findTask st taskId = none) :
    (deleteTask st userId taskId).result = .ok none ∧
    (finalStore st (deleteTask st userId taskId)).tasks = st.tasks ∧
    (finalStore st (deleteTask st userId taskId)).history =
      st.history.filter (fun h => h.taskId ≠ taskId) := by
  have hall : ∀ t ∈ st.tasks, ¬(t.id = taskId) := by
    intro t htmem heq
    have := List.find?_eq_none.mp hnone t htmem
    simp [heq] at this
  unfold deleteTask
  rw [hu]
  refine ⟨by simp [hnone], ?_, rfl⟩
  show (st.tasks.filter (fun t => t.id ≠ taskId)) = st.tasks
  rw [List.filter_eq_self]
  intro t htmem
  simpa using hall t htmem

/-- Claim C4: with an existing actor and project, creation against a project
whose live task count is at least 20 fails with the task-limit error and
performs no write; and any successful creation keeps every project's live
task count at or below 20 (it adds exactly one task, to a project whose
count was below 20). -/
theorem claim4_task_limit (st : Store) (now : Int)
    (newId userId projectId : String) (input : CreateInput) (u : User)
    (proj : Project)
    (hu : checkUser st userId = .ok u)
    (hp : checkProject st projectId = .ok proj) :
    (taskCount st projectId ≥ 20 →
      (createTaskForProject st now newId userId projectId input).result =
        .error .taskLimitReached ∧
      (createTaskForProject st now newId userId projectId input).writes = [] ∧
      finalStore st (createTaskForProject st now newId userId projectId input) = st) ∧
    (∀ res, (createTaskForProject st now newId userId projectId input).result = .ok res →
      (∀ q, taskCount st q ≤ 20) →
      ∀ q, taskCount
        (finalStore st (createTaskForProject st now newId userId projectId input)) q ≤ 20) := by
  unfold createTaskForProject
  simp only [hu, hp]
  by_cases hc : taskCount st projectId ≥ 20
  · rw [if_pos hc]
    refine ⟨fun _ => ⟨rfl, rfl, rfl⟩, ?_⟩
    intro res hres
    simp at hres
  · rw [if_neg hc]
    refine ⟨fun h20 => absurd h20 hc, ?_⟩
    intro res hres hall q
    show taskCount (applyWrites st
      [WriteEvent.insertTask (createdTask newId projectId input),
       WriteEvent.insertHistory (createdHist now newId userId input)]) q ≤ 20
    have htasks : (applyWrites st
        [WriteEvent.insertTask (createdTask newId projectId input),
         WriteEvent.insertHistory (createdHist now newId userId input)]).tasks =
        st.tasks ++ [createdTask newId projectId input] := rfl
    unfold taskCount
    rw [htasks, List.filter_append, List.length_append]
    by_cases hq : projectId = q
    · subst hq
      have h19 : (st.tasks.filter (fun t => t.projectId = projectId)).length ≤ 19 := by
        have := lt_of_not_ge hc
        unfold taskCount at this
        omega
      have hone : ([createdTask newId projectId input].filter
          (fun t => t.projectId = projectId)).length = 1 := by
        simp [createdTask]
      omega
    · have h20q : (st.tasks.filter (fun t => t.projectId = q)).length ≤ 20 := hall q
      have hzero : ([createdTask newId projectId input].filter
          (fun t => t.projectId = q)).length = 0 := by
        simp [createdTask, hq]
      omega

/-- The payload of the fixture creation calls. -/
def cInp : CreateInput :=
  { title := "Nova", description := "x", dueDate := "2025-03-01", priority := "Media" }

/-- A generic i-th task of project p1, to fill the fixture store. -/
def mkTask (i : Nat) : Task :=
  { id := "t" ++ toString i, title := "T", description := "",
    status := "Pendente", priority := "Media", dueDate := "2025-01-01",
    projectId := "p1" }

/-- Fixture for C4: project p1 already holds 20 tasks. -/
def st20 : Store :=
  { users := [uFix], projects := [pFix],
    tasks := (List.range 20).map mkTask, history := [] }

/-- Witness for C4: the 21st creation against p1 fails with the task-limit
error and writes nothing. -/
theorem claim4_witness :
    taskCount st20 "p1" ≥ 20 ∧
    (createTaskForProject st20 0 "tNew" "u1" "p1" cInp).result =
      .error .taskLimitReached ∧
    (createTaskForProject st20 0 "tNew" "u1" "p1" cInp).writes = [] :=
  ⟨by decide,
    ((claim4_task_limit st20 0 "tNew" "u1" "p1" cInp uFix pFix rfl rfl).1 (by decide)).1,
    ((claim4_task_limit st20 0 "tNew" "u1" "p1" cInp uFix pFix rfl rfl).1 (by decide)).2.1⟩

/-- A comment history entry, for fixtures. -/
def commentEntry (tid : String) (d : Int) : TaskHistory :=
  { taskId := tid, userId := "u1", changeType := "Comment", fieldName := none,
    oldValue := none, newValue := none, comment := some "hi", changeDate := d }

/-- Fixture for C9: history holds two orphan entries for the absent id
tGhost and one entry for the existing task t1. -/
def stGhost : Store :=
  { users := [uFix], projects := [], tasks := [tPending],
    history := [commentEntry "tGhost" 1, commentEntry "t1" 2, commentEntry "tGhost" 3] }

/-- Witness for C9: deleting the absent id tGhost removes its two orphan
history entries and nothing else. -/
theorem claim9_witness :
    (deleteTask stGhost "u1" "tGhost").result = .ok none ∧
    (finalStore stGhost (deleteTask stGhost "u1" "tGhost")).tasks = stGhost.tasks ∧
    (finalStore stGhost (deleteTask stGhost "u1" "tGhost")).history =
      stGhost.history.filter (fun h => h.taskId ≠ "tGhost") :=
  claim9_delete_no_precondition stGhost "u1" "tGhost" uFix rfl rfl

/-- Counterexample to claim C5: an updateFields call on the existing task t1
by the existing user u1 whose input has only a title (status omitted) fails
with the invalid-status error and persists nothing, because updateTask runs
checkTaskStatus unconditionally and checkTaskStatus rejects an absent status. -/
theorem claim5_counterexample :
    (updateTask stFix 0 "u1" "t1" { title := some "Brand new title" }).result =
      .error .invalidStatus ∧
    (updateTask stFix 0 "u1" "t1" { title := some "Brand new title" }).writes = [] ∧
    finalStore stFix (updateTask stFix 0 "u1" "t1" { title := some "Brand new title" }) = stFix :=
  ⟨rfl, rfl, rfl⟩

/-- Claim C5 as amended: an updateFields call on an existing task (with an
existing actor) whose input omits the status field IS subjected to status
validation: it always fails with the invalid-status error, performs no write,
and none of the other supplied fields are persisted. -/
theorem claim5_omitted_status_rejected (st : Store) (now : Int)
    (userId taskId : String) (input : UpdateInput) (u : User) (task : Task)
    (hu : checkUser st userId = .ok u)
    (ht : checkTask st taskId = .ok task)
    (hs : input.status = none) :
    (updateTask st now userId taskId input).result = .error .invalidStatus ∧
    (updateTask st now userId taskId input).writes = [] ∧
    finalStore st (updateTask st now userId taskId input) = st := by
  have hcs : checkTaskStatus input.status task.status = .error .invalidStatus := by
    rw [hs]
    rfl
  unfold updateTask
  simp [hu, ht, hcs, finalStore, applyWrites]

/-- Witness for the amended C5 at a concrete store. -/
theorem claim5_witness :
    (updateTask stFix 3 "u1" "t1" { description := some "changed" }).result =
      .error .invalidStatus ∧
    (updateTask stFix 3 "u1" "t1" { description := some "changed" }).writes = [] ∧
    finalStore stFix (updateTask stFix 3 "u1" "t1" { description := some "changed" }) = stFix :=
  claim5_omitted_status_rejected stFix 3 "u1" "t1" { description := some "changed" }
    uFix tPending rfl rfl rfl

/-- The history entries of an update-operation outcome are exactly the
entries whose inserts precede the final entity write. -/
theorem historyOf_shape (hs : List TaskHistory) (id : String) (p : UpdateInput)
    (r : Except ApiError (Option Task)) :
    historyOf { writes := hs.map WriteEvent.insertHistory ++
      [WriteEvent.updateTaskDoc id p], result := r } = hs := by
  unfold historyOf
  rw [List.filterMap_append, List.filterMap_map]
  simp [Function.comp_def]

/-- Any entry produced by one `fieldHistory` block carries that block's field
label and the task's old value, and is an Update entry. -/
theorem fieldHistory_spec (now : Int) (userId taskId field current : String)
    (incoming : Option String) (h : TaskHistory)
    (hmem : h ∈ fieldHistory now userId taskId field current incoming) :
    h.fieldName = some field ∧ h.oldValue = some current ∧
    h.changeType = "Update" := by
  unfold fieldHistory at hmem
  split at hmem
  · simp at hmem
  · split at hmem
    · rcases List.mem_singleton.mp hmem with rfl
      exact ⟨rfl, rfl, rfl⟩
    · simp at hmem

/-- Every history entry updateTaskStatus emits carries fieldName Status. -/
theorem updateTaskStatus_history_status (st : Store) (now : Int)
    (userId taskId : String) (input2 : UpdateInput) :
    ∀ h ∈ historyOf (updateTaskStatus st now userId taskId input2),
      h.fieldName = some "Status" := by
  intro h hmem
  unfold updateTaskStatus at hmem
  split at hmem
  · simp [historyOf] at hmem
  split at hmem
  · simp [historyOf] at hmem
  split at hmem
  · simp [historyOf] at hmem
  rw [historyOf_shape] at hmem
  split at hmem
  · split at hmem
    · rcases List.mem_singleton.mp hmem with rfl
      rfl
    · simp at hmem
  · simp at hmem

/-- Counterexample to claim C7: an accepted dueDate change on task t1 emits a
history entry whose fieldName is the string DueTo, not the canonical DueDate
the claim names. -/
theorem claim7_counterexample :
    historyOf (updateTask stFix 4 "u1" "t1"
      { dueDate := some "2025-09-09", status := some "Pendente" }) =
      [mkUpdateHistory 4 "t1" "u1" "DueTo" "2025-01-01" "2025-09-09"] ∧
    (mkUpdateHistory 4 "t1" "u1" "DueTo" "2025-01-01" "2025-09-09").fieldName ≠
      some "DueDate" :=
  ⟨rfl, by decide⟩

/-- Claim C7 as amended: every history entry emitted for an accepted dueDate
change carries the field name DueTo (not DueDate); and every Update entry
updateTask or updateTaskStatus emits has a fieldName among Title,
Description, DueTo, Status. -/
theorem claim7_update_fieldNames (st : Store) (now : Int)
    (userId taskId : String) (input input2 : UpdateInput) (u : User)
    (task : Task) (b : Bool) (v : String)
    (hu : checkUser st userId = .ok u)
    (ht : checkTask st taskId = .ok task)
    (hok : checkTaskStatus input.status task.status = .ok b)
    (hv : input.dueDate = some v)
    (hv0 : v ≠ "")
    (hvne : task.dueDate ≠ v) :
    mkUpdateHistory now taskId userId "DueTo" task.dueDate v ∈
      historyOf (updateTask st now userId taskId input) ∧
    (∀ h ∈ historyOf (updateTask st now userId taskId input),
      h.fieldName = some "Title" ∨ h.fieldName = some "Description" ∨
      h.fieldName = some "DueTo" ∨ h.fieldName = some "Status") ∧
    (∀ h ∈ historyOf (updateTaskStatus st now userId taskId input2),
      h.fieldName = some "Status") := by
  refine ⟨?_, ?_, ?_⟩
  · unfold updateTask
    simp only [hu, ht, hok]
    rw [historyOf_shape]
    have hdue : fieldHistory now userId taskId "DueTo" task.dueDate
        (stripPriority input).dueDate =
        [mkUpdateHistory now taskId userId "DueTo" task.dueDate v] := by
      rw [stripPriority_dueDate, hv]
      simp only [fieldHistory]
      rw [if_pos (by simp [hv0, hvne])]
    simp [hdue]
  · intro h hmem
    unfold updateTask at hmem
    simp only [hu, ht, hok] at hmem
    rw [historyOf_shape] at hmem
    simp only [List.mem_append] at hmem
    rcases hmem with ((hm | hm) | hm) | hm
    · exact Or.inl (fieldHistory_spec _ _ _ _ _ _ _ hm).1
    · exact Or.inr (Or.inl (fieldHistory_spec _ _ _ _ _ _ _ hm).1)
    · exact Or.inr (Or.inr (Or.inl (fieldHistory_spec _ _ _ _ _ _ _ hm).1))
    · exact Or.inr (Or.inr (Or.inr (fieldHistory_spec _ _ _ _ _ _ _ hm).1))
  · exact updateTaskStatus_history_status st now userId taskId input2

/-- Witness for the amended C7: a concrete accepted dueDate change whose
emitted entry carries fieldName DueTo. -/
theorem claim7_witness :
    mkUpdateHistory 4 "t1" "u1" "DueTo" "2025-01-01" "2025-09-09" ∈
      historyOf (updateTask stFix 4 "u1" "t1"
        { dueDate := some "2025-09-09", status := some "Pendente" }) :=
  (claim7_update_fieldNames stFix 4 "u1" "t1"
    { dueDate := some "2025-09-09", status := some "Pendente" }
    { status := some "EmAndamento" } uFix tPending true "2025-09-09"
    rfl rfl rfl rfl (by decide) (by decide)).1

/-- Is this write a history insert? -/
def isHistoryWrite : WriteEvent → Bool
  | .insertHistory _ => true
  | _ => false

/-- Shape of the write list of a successful update operation: all history
inserts first, the entity write last. -/
theorem map_isHistoryWrite_shape (hs : List TaskHistory) (id : String)
    (p : UpdateInput) :
    ((hs.map WriteEvent.insertHistory) ++ [WriteEvent.updateTaskDoc id p]).map
      isHistoryWrite = List.replicate hs.length true ++ [false] := by
  induction hs with
  | nil => rfl
  | cons a t ih =>
    show true :: ((t.map WriteEvent.insertHistory ++
      [WriteEvent.updateTaskDoc id p]).map isHistoryWrite) =
      true :: (List.replicate t.length true ++ [false])
    exact congrArg _ ih

/-- Dichotomy of an updateTask call: either it threw, having performed no
write, or it succeeded and its trace is all history inserts followed by the
one entity write. -/
theorem updateTask_trace_cases (st : Store) (now : Int)
    (userId taskId : String) (input : UpdateInput) :
    ((updateTask st now userId taskId input).writes = [] ∧
      ∃ e, (updateTask st now userId taskId input).result = .error e) ∨
    ((updateTask st now userId taskId input).writes.map isHistoryWrite =
        List.replicate (historyOf (updateTask st now userId taskId input)).length
          true ++ [false] ∧
      ∃ r, (updateTask st now userId taskId input).result = .ok r) := by
  unfold updateTask
  rcases checkUser st userId with e1 | u1
  · exact Or.inl ⟨rfl, e1, rfl⟩
  dsimp only
  rcases checkTask st taskId with e2 | task
  · exact Or.inl ⟨rfl, e2, rfl⟩
  dsimp only
  rcases checkTaskStatus input.status task.status with e3 | b
  · exact Or.inl ⟨rfl, e3, rfl⟩
  dsimp only
  refine Or.inr ⟨?_, _, rfl⟩
  rw [historyOf_shape, map_isHistoryWrite_shape]

/-- Dichotomy of an updateTaskStatus call, as for updateTask. -/
theorem updateTaskStatus_trace_cases (st : Store) (now : Int)
    (userId taskId : String) (input : UpdateInput) :
    ((updateTaskStatus st now userId taskId input).writes = [] ∧
      ∃ e, (updateTaskStatus st now userId taskId input).result = .error e) ∨
    ((updateTaskStatus st now userId taskId input).writes.map isHistoryWrite =
        List.replicate (historyOf (updateTaskStatus st now userId taskId input)).length
          true ++ [false] ∧
      ∃ r, (updateTaskStatus st now userId taskId input).result = .ok r) := by
  unfold updateTaskStatus
  rcases checkUser st userId with e1 | u1
  · exact Or.inl ⟨rfl, e1, rfl⟩
  dsimp only
  rcases checkTask st taskId with e2 | task
  · exact Or.inl ⟨rfl, e2, rfl⟩
  dsimp only
  rcases checkTaskStatus input.status task.status with e3 | b
  · exact Or.inl ⟨rfl, e3, rfl⟩
  dsimp only
  refine Or.inr ⟨?_, _, rfl⟩
  rw [historyOf_shape, map_isHistoryWrite_shape]

/-- Dichotomy of an addComment call: a throw wrote nothing; success wrote the
comment history entry and then touched the task. -/
theorem addComment_trace_cases (st : Store) (now : Int)
    (userId taskId : String) (c : Option String) :
    ((addComment st now userId taskId c).writes = [] ∧
      ∃ e, (addComment st now userId taskId c).result = .error e) ∨
    ((addComment st now userId taskId c).writes.map isHistoryWrite = [true, false] ∧
      ∃ r, (addComment st now userId taskId c).result = .ok r) := by
  unfold addComment
  rcases checkUser st userId with e1 | u1
  · exact Or.inl ⟨rfl, e1, rfl⟩
  dsimp only
  rcases checkTask st taskId with e2 | task
  · exact Or.inl ⟨rfl, e2, rfl⟩
  exact Or.inr ⟨rfl, _, rfl⟩

/-- Dichotomy of a createTaskForProject call: a throw wrote nothing; success
wrote the task first and its Create history entry second. -/
theorem create_trace_cases (st : Store) (now : Int)
    (newId userId projectId : String) (input : CreateInput) :
    ((createTaskForProject st now newId userId projectId input).writes = [] ∧
      ∃ e, (createTaskForProject st now newId userId projectId input).result = .error e) ∨
    ((createTaskForProject st now newId userId projectId input).writes.map
        isHistoryWrite = [false, true] ∧
      ∃ r, (createTaskForProject st now newId userId projectId input).result = .ok r) := by
  unfold createTaskForProject
  rcases checkUser st userId with e1 | u1
  · exact Or.inl ⟨rfl, e1, rfl⟩
  dsimp only
  rcases checkProject st projectId with e2 | proj
  · exact Or.inl ⟨rfl, e2, rfl⟩
  dsimp only
  by_cases hc : taskCount st projectId ≥ 20
  · rw [if_pos hc]
    exact Or.inl ⟨rfl, _, rfl⟩
  · rw [if_neg hc]
    exact Or.inr ⟨rfl, _, rfl⟩

/-- Counterexample to claim C6: a successful updateFields call saves its
history entry BEFORE the entity write: the write trace is the history insert
followed by the findByIdAndUpdate, so between the two writes a history entry
exists describing an update that has not yet been applied. -/
theorem claim6_counterexample :
    (updateTask stFix 5 "u1" "t1"
      { title := some "Reordered", status := some "Pendente" }).writes =
      [WriteEvent.insertHistory (mkUpdateHistory 5 "t1" "u1" "Title" "Old title" "Reordered"),
       WriteEvent.updateTaskDoc "t1"
         { title := some "Reordered", status := some "Pendente" }] ∧
    isHistoryWrite (WriteEvent.insertHistory
      (mkUpdateHistory 5 "t1" "u1" "Title" "Old title" "Reordered")) = true :=
  ⟨rfl, rfl⟩

/-- Claim C6 as amended: in every mutation operation no write at all happens
unless all validation succeeds (a thrown error leaves an empty write trace);
creation writes the entity first and its history entry second; but the three
update operations write all their history entries BEFORE the entity write
(validate, write history, write entity), the reverse of the claimed
history-after-entity order. -/
theorem claim6_write_order (st : Store) (now : Int)
    (newId userId projectId taskId : String) (cinput : CreateInput)
    (uinput sinput : UpdateInput) (c : Option String) :
    (∀ e, (createTaskForProject st now newId userId projectId cinput).result = .error e →
      (createTaskForProject st now newId userId projectId cinput).writes = []) ∧
    (∀ e, (updateTask st now userId taskId uinput).result = .error e →
      (updateTask st now userId taskId uinput).writes = []) ∧
    (∀ e, (updateTaskStatus st now userId taskId sinput).result = .error e →
      (updateTaskStatus st now userId taskId sinput).writes = []) ∧
    (∀ e, (addComment st now userId taskId c).result = .error e →
      (addComment st now userId taskId c).writes = []) ∧
    (∀ res, (createTaskForProject st now newId userId projectId cinput).result = .ok res →
      (createTaskForProject st now newId userId projectId cinput).writes.map
        isHistoryWrite = [false, true]) ∧
    (∀ res, (updateTask st now userId taskId uinput).result = .ok res →
      (updateTask st now userId taskId uinput).writes.map isHistoryWrite =
        List.replicate (historyOf (updateTask st now userId taskId uinput)).length
          true ++ [false]) ∧
    (∀ res, (updateTaskStatus st now userId taskId sinput).result = .ok res →
      (updateTaskStatus st now userId taskId sinput).writes.map isHistoryWrite =
        List.replicate (historyOf (updateTaskStatus st now userId taskId sinput)).length
          true ++ [false]) ∧
    (∀ res, (addComment st now userId taskId c).result = .ok res →
      (addComment st now userId taskId c).writes.map isHistoryWrite = [true, false]) := by
  have hcr := create_trace_cases st now newId userId projectId cinput
  have hut := updateTask_trace_cases st now userId taskId uinput
  have hus := updateTaskStatus_trace_cases st now userId taskId sinput
  have hac := addComment_trace_cases st now userId taskId c
  refine ⟨?_, ?_, ?_, ?_, ?_, ?_, ?_, ?_⟩
  · intro e he
    rcases hcr with ⟨hw, _⟩ | ⟨_, r, hr⟩
    · exact hw
    · exact absurd (he.symm.trans hr) (by simp)
  · intro e he
    rcases hut with ⟨hw, _⟩ | ⟨_, r, hr⟩
    · exact hw
    · exact absurd (he.symm.trans hr) (by simp)
  · intro e he
    rcases hus with ⟨hw, _⟩ | ⟨_, r, hr⟩
    · exact hw
    · exact absurd (he.symm.trans hr) (by simp)
  · intro e he
    rcases hac with ⟨hw, _⟩ | ⟨_, r, hr⟩
    · exact hw
    · exact absurd (he.symm.trans hr) (by simp)
  · intro res hres
    rcases hcr with ⟨_, e, he⟩ | ⟨hs, _⟩
    · exact absurd (hres.symm.trans he) (by simp)
    · exact hs
  · intro res hres
    rcases hut with ⟨_, e, he⟩ | ⟨hs, _⟩
    · exact absurd (hres.symm.trans he) (by simp)
    · exact hs
  · intro res hres
    rcases hus with ⟨_, e, he⟩ | ⟨hs, _⟩
    · exact absurd (hres.symm.trans he) (by simp)
    · exact hs
  · intro res hres
    rcases hac with ⟨_, e, he⟩ | ⟨hs, _⟩
    · exact absurd (hres.symm.trans he) (by simp)
    · exact hs

/-- Witness for the amended C6: concrete traces of a successful creation
(entity before history) and a successful field update (history before
entity). -/
theorem claim6_witness :
    (createTaskForProject stFix 0 "t9" "u1" "p1" cInp).writes.map
      isHistoryWrite = [false, true] ∧
    (updateTask stFix 0 "u1" "t1"
      { title := some "Nv", status := some "Pendente" }).writes.map isHistoryWrite =
      List.replicate (historyOf (updateTask stFix 0 "u1" "t1"
        { title := some "Nv", status := some "Pendente" })).length true ++ [false] :=
  ⟨(claim6_write_order stFix 0 "t9" "u1" "p1" "t1" cInp
      { title := some "Nv", status := some "Pendente" } {} none).2.2.2.2.1 _ rfl,
   (claim6_write_order stFix 0 "t9" "u1" "p1" "t1" cInp
      { title := some "Nv", status := some "Pendente" } {} none).2.2.2.2.2.1 _ rfl⟩

/-! ## Claim C3: one history entry per changed field -/

/-- The four mutable task fields, in the fixed order updateTask processes
them. -/
inductive FieldTag where
  | title
  | description
  | dueDate
  | status
  deriving DecidableEq, Repr

/-- The fieldName string updateTask records for each field. -/
def fieldLabel : FieldTag → String
  | .title => "Title"
  | .description => "Description"
  | .dueDate => "DueTo"
  | .status => "Status"

/-- The task's current value of a field. -/
def fieldCurrent (t : Task) : FieldTag → String
  | .title => t.title
  | .description => t.description
  | .dueDate => t.dueDate
  | .status => t.status

/-- The incoming value of a field in the update input. -/
def fieldIncoming (p : UpdateInput) : FieldTag → Option String
  | .title => p.title
  | .description => p.description
  | .dueDate => p.dueDate
  | .status => p.status

/-- Spec-side description of the fields a call changes, written from the
claim's words: the fields carried in the input with a (non-empty) value
different from the task's current value, in the fixed order Title,
Description, DueDate, Status. -/
def changedFields (t : Task) (p : UpdateInput) : List FieldTag :=
  [FieldTag.title, FieldTag.description, FieldTag.dueDate, FieldTag.status].filter
    (fun f => match fieldIncoming p f with
      | some v => v ≠ "" && fieldCurrent t f ≠ v
      | none => false)

/-- Spec-side description of the history entries one updateFields call must
produce: one Update entry per changed field, oldValue/newValue the
before/after values, in the fixed field order. -/
def specEntries (now : Int) (userId taskId : String) (t : Task)
    (p : UpdateInput) : List TaskHistory :=
  (changedFields t p).map (fun f =>
    mkUpdateHistory now taskId userId (fieldLabel f) (fieldCurrent t f)
      ((fieldIncoming p f).getD ""))

/-- Each fieldHistory block agrees with the one-field spec entry. -/
theorem fieldHistory_eq_spec (now : Int) (userId taskId : String)
    (f : FieldTag) (t : Task) (p : UpdateInput) :
    fieldHistory now userId taskId (fieldLabel f) (fieldCurrent t f)
        (fieldIncoming p f) =
      (if (match fieldIncoming p f with
            | some v => v ≠ "" && fieldCurrent t f ≠ v
            | none => false) = true
       then [mkUpdateHistory now taskId userId (fieldLabel f) (fieldCurrent t f)
              ((fieldIncoming p f).getD "")]
       else []) := by
  rcases hf : fieldIncoming p f with _ | v
  · rfl
  · rfl

/-- specEntries is exactly the concatenation of the four fieldHistory
blocks, in updateTask's order. -/
theorem specEntries_expand (now : Int) (userId taskId : String) (t : Task)
    (p : UpdateInput) :
    specEntries now userId taskId t p =
      fieldHistory now userId taskId "Title" t.title p.title ++
      fieldHistory now userId taskId "Description" t.description p.description ++
      fieldHistory now userId taskId "DueTo" t.dueDate p.dueDate ++
      fieldHistory now userId taskId "Status" t.status p.status := by
  have ht := fieldHistory_eq_spec now userId taskId FieldTag.title t p
  have hd := fieldHistory_eq_spec now userId taskId FieldTag.description t p
  have hdd := fieldHistory_eq_spec now userId taskId FieldTag.dueDate t p
  have hs := fieldHistory_eq_spec now userId taskId FieldTag.status t p
  simp only [fieldLabel, fieldCurrent, fieldIncoming] at ht hd hdd hs
  rw [ht, hd, hdd, hs]
  unfold specEntries changedFields
  simp only [List.filter_cons, List.filter_nil, fieldIncoming, fieldCurrent]
  split_ifs <;> simp [fieldLabel, fieldCurrent, fieldIncoming]

/-- Counterexample to claim C3: (a) an input carrying exactly one changed
value (a new title) but no status produces zero history entries, not one,
because the unconditional status validation throws first; (b) an input
carrying two values different from the task's current values (an empty
description and the status Concluida) produces one entry, not two, because a
falsy incoming value emits no entry. -/
theorem claim3_counterexample :
    (findTask stFix "t1" = some tPending ∧ tPending.title ≠ "Second title" ∧
      historyOf (updateTask stFix 0 "u1" "t1" { title := some "Second title" }) = []) ∧
    (tPending.description ≠ "" ∧
      historyOf (updateTask stFix 0 "u1" "t1"
        { description := some "", status := some "Concluida" }) =
        [mkUpdateHistory 0 "t1" "u1" "Status" "Pendente" "Concluida"]) :=
  ⟨⟨rfl, by decide, rfl⟩, by decide, rfl⟩

/-- Claim C3 as amended: for every updateFields call on an existing task
(with an existing actor) whose carried status passes status validation,
letting N be the number of fields among title, description, dueDate, status
present in the input with a non-empty value different from the task's
current value, exactly N Update HistoryEntries are created — one per such
field, with oldValue/newValue the before/after values — in the fixed order
Title, Description, DueDate (recorded as DueTo), Status; a field absent,
empty, or equal to the current value produces no entry. -/
theorem claim3_history_per_changed_field (st : Store) (now : Int)
    (userId taskId : String) (input : UpdateInput) (u : User) (task : Task)
    (b : Bool)
    (hu : checkUser st userId = .ok u)
    (ht : checkTask st taskId = .ok task)
    (hok : checkTaskStatus input.status task.status = .ok b) :
    historyOf (updateTask st now userId taskId input) =
      specEntries now userId taskId task input ∧
    (historyOf (updateTask st now userId taskId input)).length =
      (changedFields task input).length := by
  have hmain : historyOf (updateTask st now userId taskId input) =
      specEntries now userId taskId task input := by
    unfold updateTask
    simp only [hu, ht, hok]
    rw [historyOf_shape, specEntries_expand]
    rw [stripPriority_title, stripPriority_description, stripPriority_dueDate,
      stripPriority_status]
  refine ⟨hmain, ?_⟩
  rw [hmain]
  unfold specEntries
  rw [List.length_map]

/-- Witness for the amended C3: a concrete call changing only the title
(status carried but unchanged) produces exactly the one specified entry. -/
theorem claim3_witness :
    historyOf (updateTask stFix 9 "u1" "t1"
        { title := some "Witness title", status := some "Pendente" }) =
      specEntries 9 "u1" "t1" tPending
        { title := some "Witness title", status := some "Pendente" } ∧
    (historyOf (updateTask stFix 9 "u1" "t1"
        { title := some "Witness title", status := some "Pendente" })).length =
      (changedFields tPending
        { title := some "Witness title", status := some "Pendente" }).length :=
  claim3_history_per_changed_field stFix 9 "u1" "t1"
    { title := some "Witness title", status := some "Pendente" }
    uFix tPending true rfl rfl rfl

/-! ## Claims C8 and C10: the performance report -/

/-- The report succeeds for an existing Manager and aggregates the filtered
history. -/
theorem report_ok {st : Store} {userId : String} {u : User} (day : Nat)
    (hcu : checkUser st userId = .ok u) (hrole : u.role = "Manager") :
    getPerformanceReport st day userId = .ok (reportOf (completedIn st day)) := by
  unfold getPerformanceReport
  rw [hcu]
  simp [hrole]

/-- The fixture manager. -/
def mgr : User := { id := "mgr", name := "M", email := "m@x", role := "Manager" }

/-- A Status-to-Concluida update entry authored by user A, at timestamp d. -/
def hDoneA (d : Int) : TaskHistory :=
  { taskId := "t", userId := "A", changeType := "Update",
    fieldName := some "Status", oldValue := some "Pendente",
    newValue := some "Concluida", comment := none, changeDate := d }

/-- The same entry authored by user B. -/
def hDoneB : TaskHistory := { hDoneA 1003 with userId := "B" }

/-- Fixture for C8: the history holds exactly four Status-to-Concluida update
entries, three by A and one by B. -/
def stRep : Store :=
  { users := [mgr], projects := [], tasks := [],
    history := [hDoneA 1000, hDoneA 1001, hDoneA 1002, hDoneB] }

/-- Claim C8: on the fixture history of four Completed-status updates (three
by A, one by B), the Manager report counts 4 completed tasks, 2 distinct
users, and an average of 2.0 — whatever the current day of month is. -/
theorem claim8_report_values (day : Nat) (h1 : 1 ≤ day) (h31 : day ≤ 31) :
    getPerformanceReport stRep day "mgr" =
      .ok { totalTasksCompleted := 4, distinctUsersWhoCompletedTasks := 2,
            averageTasksCompletedPerUser := 2 } := by
  have hm : ∀ h ∈ stRep.history, matchesCompletedQuery day h = true := by
    intro h hh
    fin_cases hh <;>
      simp [matchesCompletedQuery, stRep, hDoneA, hDoneB] <;> omega
  have hfil : completedIn stRep day = stRep.history :=
    List.filter_eq_self.mpr hm
  rw [report_ok day (show checkUser stRep "mgr" = .ok mgr from rfl) rfl, hfil]
  have hxd : (stRep.history.map (fun h => h.userId)).dedup = ["A", "B"] := rfl
  unfold reportOf
  rw [hxd]
  norm_num [jsRound, stRep, hDoneA, hDoneB]

/-- Witness for C8 at day 15. -/
theorem claim8_witness :
    getPerformanceReport stRep 15 "mgr" =
      .ok { totalTasksCompleted := 4, distinctUsersWhoCompletedTasks := 2,
            averageTasksCompletedPerUser := 2 } :=
  claim8_report_values 15 (by decide) (by decide)

/-- The three type conditions of the report query, without the date
condition: Update entries on the Status field whose new value is Concluida. -/
def specCompletedFilter (h : TaskHistory) : Bool :=
  decide (h.changeType = "Update") && decide (h.fieldName = some "Status") &&
    decide (h.newValue = some "Concluida")

/-- Claim C10: the report query selects exactly the Update/Status/Concluida
entries; its changeDate bound is the integer day-of-month minus 30 (at most
1), so on every entry with a genuine timestamp (at least 1ms past the epoch)
the date condition imposes no restriction, and the report total counts the
matching entries of every age. -/
theorem claim10_date_filter_vacuous (st : Store) (day : Nat) (userId : String)
    (u : User)
    (h1 : 1 ≤ day) (h31 : day ≤ 31)
    (hu : checkUser st userId = .ok u)
    (hrole : u.role = "Manager")
    (hgen : ∀ h ∈ st.history, 1 ≤ h.changeDate) :
    (∀ h ∈ st.history, matchesCompletedQuery day h = specCompletedFilter h) ∧
    (getPerformanceReport st day userId).map (fun r => r.totalTasksCompleted) =
      .ok ((st.history.filter specCompletedFilter).length) := by
  have hmatch : ∀ h ∈ st.history,
      matchesCompletedQuery day h = specCompletedFilter h := by
    intro h hh
    unfold matchesCompletedQuery specCompletedFilter
    have hd : (day : Int) - 30 ≤ h.changeDate := by
      have := hgen h hh
      omega
    simp [hd]
  refine ⟨hmatch, ?_⟩
  have hfil : completedIn st day = st.history.filter specCompletedFilter := by
    unfold completedIn
    exact List.filter_congr hmatch
  rw [report_ok day hu hrole, hfil]
  unfold reportOf
  by_cases hz : ((st.history.filter specCompletedFilter).length = 0)
  · rw [if_pos hz]
    simp [Except.map, hz]
  · rw [if_neg hz]
    simp [Except.map]

/-- Witness for C10 on the fixture store at day 15: the report counts all
four old entries. -/
theorem claim10_witness :
    (getPerformanceReport stRep 15 "mgr").map (fun r => r.totalTasksCompleted) =
      .ok ((stRep.history.filter specCompletedFilter).length) :=
  (claim10_date_filter_vacuous stRep 15 "mgr" mgr (by decide) (by decide)
    rfl rfl (by decide)).2

end TaskApi
